import Mathlib

/-!
Shallow embedding of `models/rnn.py` (SU4MLC): the recurrent encoder with
dilated-convolution refinement, the attention-augmented recurrent decoder and
the stacked recurrent cells.  Tensors are nested lists of integer scalars
(exact stand-ins for the framework's floats, adequate because every claim here
concerns data flow, shapes and invariances rather than float rounding); the
framework modules that the file merely composes (nn.GRU / nn.LSTM, the GRU/LSTM
cells, SELU, the attention mechanisms) are opaque function parameters, while
everything the file itself does (pack/unpack, slicing, transposes, Conv1d
configuration, dropout placement, state reduction, dispatch) is embedded
concretely.
-/
abbrev Vec := List ℤ

abbrev Mat := List Vec

abbrev Seq3 := List Mat

/-- `nn.Dropout` / `nn.AlphaDropout`: in training mode an opaque noise
transformation `η` is applied; in evaluation mode the layer is the identity. -/
def dropoutB (training : Bool) (η : Mat → Mat) (m : Mat) : Mat :=
  if training then η m else m

/-- Apply a scalar activation elementwise to a matrix (`nn.SELU` is passed in
as an opaque scalar function). -/
def seluMap (f : ℤ → ℤ) (m : Mat) : Mat :=
  m.map (fun row => row.map f)

/-- Matrix transpose over the outer two list dimensions (`Tensor.transpose`).
Row `j` of the result collects entry `j` of every input row. -/
def transposeMat (x : List (List α)) : List (List α) :=
  (List.range (x.headD []).length).map (fun j => x.filterMap (fun row => row.get? j))

/-- Maximum of a list of lengths (the padded length `pad_packed_sequence`
restores, which for valid `pack_padded_sequence` input is the head of the
descending-sorted lengths). -/
def maxLen (lengths : List Nat) : Nat :=
  lengths.foldr Nat.max 0

/-- Semantics of `pad_packed_sequence(pack_padded_sequence(x, lengths))[0]` on a
time-major `(T, B, E)` tensor: positions `t < lengths[b]` keep their content,
every position at or beyond the true length is restored as a zero vector of
feature width `E`, and the time dimension is the maximal true length. -/
def packUnpack (E : Nat) (x : Seq3) (lengths : List Nat) : Seq3 :=
  (List.range (maxLen lengths)).map (fun t =>
    (List.range lengths.length).map (fun b =>
      if t < lengths.getD b 0 then (x.getD t []).getD b [] else List.replicate E 0))

/-- Sequential `Option`-valued map (failure of any element fails the whole
batched operation, as a framework error aborts the batched call). -/
def mapOption (f : α → Option β) : List α → Option (List β)
  | [] => some []
  | a :: l =>
    match f a, mapOption f l with
    | some b, some bs => some (b :: bs)
    | _, _ => none

/-- Kernel dot product of one weight row against one padded input row at output
position `t`, with tap spacing `dilation`. -/
def dotK (k dilation : Nat) (wrow xrow : Vec) (t : Nat) : ℤ :=
  ((List.range k).map (fun j => wrow.getD j 0 * xrow.getD (t + j * dilation) 0)).sum

/-- `nn.Conv1d` (stride 1) on a single `(channels, length)` example: zero
padding on both sides, output length `L + 2*padding - dilation*(kernel-1)`;
when that size would be non-positive the framework raises, modelled as `none`. -/
def conv1d (weight : List Mat) (bias : Vec) (padding dilation : Nat) (x : Mat) : Option Mat :=
  let L := (x.headD []).length
  let k := ((weight.headD []).headD []).length
  if L + 2 * padding < dilation * (k - 1) + 1 then none
  else
    let xpad := x.map (fun row => List.replicate padding 0 ++ row ++ List.replicate padding 0)
    let lOut := L + 2 * padding - dilation * (k - 1)
    some ((weight.zip bias).map (fun wb =>
      (List.range lOut).map (fun t =>
        wb.2 + ((wb.1.zip xpad).map (fun wx => dotK k dilation wx.1 wx.2 t)).sum)))

/-- Final state of the encoder recurrent network: `nn.GRU` returns one stack of
per-layer hidden matrices, `nn.LSTM` a pair of hidden and cell stacks. -/
inductive RnnState where
  | gru (h : Seq3)
  | lstm (h c : Seq3)
deriving DecidableEq

/-- The configuration object consumed by `rnn_encoder` / `rnn_decoder`
(`config.*` in the source). -/
structure EncConfig where
  cell : String
  emb_size : Nat
  hidden_size : Nat
  enc_num_layers : Nat
  dec_num_layers : Nat
  drop_p : ℚ
  bidirectional : Bool
  src_vocab_size : Nat
  tgt_vocab_size : Nat
  attention : String
  pool_size : Nat

/-- The learned submodules owned by `rnn_encoder`: the embedding table as a
lookup function, the recurrent network `self.rnn` as an opaque function (its
internals are `nn.GRU`/`nn.LSTM`), the three `Conv1d` weight/bias pairs of
`self.dconv`, the SELU scalar function, and the two constructed-but-unused
submodules `self.linear` (its weight and bias) and `self.glu`. -/
structure EncParams where
  embedding : Nat → Vec
  rnn : Seq3 → Seq3 × RnnState
  w1 : List Mat
  b1 : Vec
  w2 : List Mat
  b2 : Vec
  w3 : List Mat
  b3 : Vec
  selu : ℤ → ℤ
  linear_weight : Mat
  linear_bias : Vec
  glu : Vec → Vec

/-- `embs = pack(self.embedding(inputs), lengths); embeds = unpack(embs)[0]`:
embed the `(T, B)` token batch and normalize it through pack-then-unpack. -/
def encEmbeds (cfg : EncConfig) (p : EncParams) (inputs : List (List Nat))
    (lengths : List Nat) : Seq3 :=
  packUnpack cfg.emb_size (inputs.map (fun row => row.map p.embedding)) lengths

/-- `outputs, state = self.rnn(embeds)`. -/
def encRnnOut (cfg : EncConfig) (p : EncParams) (inputs : List (List Nat))
    (lengths : List Nat) : Seq3 × RnnState :=
  p.rnn (encEmbeds cfg p inputs lengths)

/-- `outputs[:, :, :hidden_size] + outputs[:, :, hidden_size:]`: elementwise sum
of the forward and backward halves of every per-position feature vector. -/
def bidirSum (H : Nat) (out : Seq3) : Seq3 :=
  out.map (fun m => m.map (fun v => (v.take H).zipWith (· + ·) (v.drop H)))

/-- The encoder outputs after the bidirectional fold (lines 38-41). -/
def encOutputs (cfg : EncConfig) (p : EncParams) (inputs : List (List Nat))
    (lengths : List Nat) : Seq3 :=
  let o := (encRnnOut cfg p inputs lengths).1
  if cfg.bidirectional then bidirSum cfg.hidden_size o else o

/-- `self.dconv` on one `(channels, length)` example: Conv1d(k=3, padding=1,
dilation=1) / SELU / AlphaDropout, then dilation 2, then dilation 3 (lines
26-31), each convolution failing when its output size would be non-positive. -/
def dconvApply (p : EncParams) (training : Bool) (η : Nat → Mat → Mat) (x : Mat) :
    Option Mat :=
  match conv1d p.w1 p.b1 1 1 x with
  | none => none
  | some y1 =>
    let z1 := dropoutB training (η 1) (seluMap p.selu y1)
    match conv1d p.w2 p.b2 1 2 z1 with
    | none => none
    | some y2 =>
      let z2 := dropoutB training (η 2) (seluMap p.selu y2)
      match conv1d p.w3 p.b3 1 3 z2 with
      | none => none
      | some y3 => some (dropoutB training (η 3) (seluMap p.selu y3))

/-- Lines 43-45: `conv = outputs.transpose(0,1).transpose(1,2)` takes the
time-major outputs to `(B, H, T)`, `self.dconv` runs per example, and
`conv.transpose(1,2)` leaves the context in batch-major `(B, T', H)` layout. -/
def encConv (cfg : EncConfig) (p : EncParams) (training : Bool)
    (η : Nat → Mat → Mat) (inputs : List (List Nat)) (lengths : List Nat) :
    Option Seq3 :=
  match mapOption (dconvApply p training η)
      ((transposeMat (encOutputs cfg p inputs lengths)).map transposeMat) with
  | none => none
  | some c => some (c.map transposeMat)

/-- Every other element of a list (Python `[::2]`). -/
def everyOther : List α → List α
  | [] => []
  | [a] => [a]
  | a :: _ :: rest => a :: everyOther rest

/-- Lines 47-50: the final recurrent state is reduced to the decoder's layer
count, `state[:dec_num_layers]` in the GRU branch (`config.cell == 'gru'`, the
configuration under which `self.rnn` is an `nn.GRU` and the state has the `gru`
shape) and `(state[0][::2], state[1][::2])` in the LSTM branch. -/
def reduceState (dec : Nat) : RnnState → RnnState
  | .gru h => .gru (h.take dec)
  | .lstm h c => .lstm (everyOther h) (everyOther c)

/-- The reduced state handed to the decoder. -/
def encReducedState (cfg : EncConfig) (p : EncParams) (inputs : List (List Nat))
    (lengths : List Nat) : RnnState :=
  reduceState cfg.dec_num_layers (encRnnOut cfg p inputs lengths).2

/-- `rnn_encoder.forward` (lines 35-52): returns `(outputs, state, conv)`, or
`none` when the convolution stack raises. -/
def rnn_encoder.forward (cfg : EncConfig) (p : EncParams) (training : Bool)
    (η : Nat → Mat → Mat) (inputs : List (List Nat)) (lengths : List Nat) :
    Option (Seq3 × RnnState × Seq3) :=
  match encConv cfg p training η inputs lengths with
  | none => none
  | some c =>
    some (encOutputs cfg p inputs lengths, encReducedState cfg p inputs lengths, c)

/-- One step of `StackedGRU.forward` (lines 145-157), recursing over the
remaining layers with `i` the index of the next layer: apply layer `i` to the
running input and `h_0[i]`, apply `self.dropout` to the new hidden vector
before it feeds the next layer unless `i + 1 == num_layers`, and collect every
raw new hidden vector. -/
def stackedGRUGo (numLayers : Nat) (training : Bool) (η : Nat → Mat → Mat)
    (h0 : List Mat) : Nat → List (Mat → Mat → Mat) → Mat → Mat × List Mat
  | _, [], inp => (inp, [])
  | i, layer :: rest, inp =>
    let h1i := layer inp (h0.getD i [])
    let inp' := if i + 1 ≠ numLayers then dropoutB training (η i) h1i else h1i
    let r := stackedGRUGo numLayers training η h0 (i + 1) rest inp'
    (r.1, h1i :: r.2)

/-- `StackedGRU.forward`: returns the running input after the last layer (the
last layer's new hidden vector) and the stacked per-layer hidden vectors. -/
def StackedGRU.forward (numLayers : Nat) (layers : List (Mat → Mat → Mat))
    (training : Bool) (η : Nat → Mat → Mat) (input : Mat) (h0 : List Mat) :
    Mat × List Mat :=
  stackedGRUGo numLayers training η h0 0 layers input

/-- One step of `StackedLSTM.forward` (lines 117-131): each layer maps the
running input and `(h_0[i], c_0[i])` to `(h_1_i, c_1_i)`; dropout is applied to
`h_1_i` before it feeds the next layer unless `i + 1 == num_layers`; both raw
new hidden and new cell vectors are collected. -/
def stackedLSTMGo (numLayers : Nat) (training : Bool) (η : Nat → Mat → Mat)
    (h0 c0 : List Mat) :
    Nat → List (Mat → Mat × Mat → Mat × Mat) → Mat → Mat × (List Mat × List Mat)
  | _, [], inp => (inp, ([], []))
  | i, layer :: rest, inp =>
    let hc := layer inp (h0.getD i [], c0.getD i [])
    let inp' := if i + 1 ≠ numLayers then dropoutB training (η i) hc.1 else hc.1
    let r := stackedLSTMGo numLayers training η h0 c0 (i + 1) rest inp'
    (r.1, (hc.1 :: r.2.1, hc.2 :: r.2.2))

/-- `StackedLSTM.forward`. -/
def StackedLSTM.forward (numLayers : Nat)
    (layers : List (Mat → Mat × Mat → Mat × Mat)) (training : Bool)
    (η : Nat → Mat → Mat) (input : Mat) (h0 c0 : List Mat) :
    Mat × (List Mat × List Mat) :=
  stackedLSTMGo numLayers training η h0 c0 0 layers input

/-- The decoder's recurrent module `self.rnn`: a `StackedGRU` or a
`StackedLSTM` with its per-layer framework cells as opaque functions
(constructed in `rnn_decoder.__init__`, lines 63-68). -/
inductive StackedCell where
  | gru (numLayers : Nat) (layers : List (Mat → Mat → Mat))
  | lstm (numLayers : Nat) (layers : List (Mat → Mat × Mat → Mat × Mat))

/-- Advance the stacked cell by one step on a running state.  A state of the
wrong variant for the cell makes the framework raise a shape error inside the
first cell call, modelled as `none`. -/
def StackedCell.step (training : Bool) (η : Nat → Mat → Mat) :
    StackedCell → Mat → RnnState → Option (Mat × RnnState)
  | .gru n ls, inp, .gru h =>
    let r := StackedGRU.forward n ls training η inp h
    some (r.1, .gru r.2)
  | .lstm n ls, inp, .lstm h c =>
    let r := StackedLSTM.forward n ls training η inp h c
    some (r.1, .lstm r.2.1 r.2.2)
  | _, _, _ => none

/-- The context handed to a black-box attention mechanism: the encoder's
convolutional context for `luong_gate`, the step's embeddings otherwise. -/
inductive AttCtx where
  | convCtx (c : Seq3)
  | embCtx (e : Mat)

/-- An attention mechanism: `attend(output, context) -> (output, weights)`. -/
abbrev AttnF := Mat → AttCtx → Mat × Mat

/-- The attention-mode dispatch of `rnn_decoder.__init__` (lines 72-79).  The
result is the value of the `self.attention` attribute: the outer `none` means
the attribute is never assigned (there is no final `else`), `some none` means
attention disabled, `some (some f)` a constructed mechanism.  The three
mechanism constructors are opaque external modules. -/
def rnn_decoder.initAttention (useAttention : Bool) (cfg : EncConfig)
    (bahdanauF luongF luongGateF : AttnF) : Option (Option AttnF) :=
  if useAttention = false ∨ cfg.attention = "None" then some none
  else if cfg.attention = "bahdanau" then some (some bahdanauF)
  else if cfg.attention = "luong" then some (some luongF)
  else if cfg.attention = "luong_gate" then some (some luongGateF)
  else none

/-- The submodules owned by `rnn_decoder`: embedding lookup, the stacked
recurrent cell, the vocabulary projection `self.linear` and the value of the
`self.attention` attribute (see `rnn_decoder.initAttention`). -/
structure DecParams where
  embedding : Nat → Vec
  rnnCell : StackedCell
  linear_weight : Mat
  linear_bias : Vec
  attnAttr : Option (Option AttnF)

/-- `nn.Linear` on one feature vector: `W v + b` with one output per weight
row. -/
def linearRow (w : Mat) (b : Vec) (v : Vec) : Vec :=
  (w.zip b).map (fun rb =>
    rb.2 + ((rb.1.zip v).map (fun xy => xy.1 * xy.2)).sum)

/-- `nn.Linear` applied to a batch of feature vectors. -/
def linearBatch (w : Mat) (b : Vec) (m : Mat) : Mat :=
  m.map (linearRow w b)

/-- `rnn_decoder.compute_score` (lines 100-102). -/
def rnn_decoder.compute_score (p : DecParams) (hiddens : Mat) : Mat :=
  linearBatch p.linear_weight p.linear_bias hiddens

/-- `rnn_decoder.forward` (lines 85-98): embed the input tokens, advance the
stacked cell one step, optionally attend (over `conv` exactly when
`config.attention == 'luong_gate'`, over the embeddings otherwise), and project
to vocabulary scores.  Reading an unset `self.attention` attribute raises,
modelled as `none`; so does a state/cell variant mismatch. -/
def rnn_decoder.forward (cfg : EncConfig) (p : DecParams) (training : Bool)
    (η : Nat → Mat → Mat) (input : List Nat) (state : RnnState) (conv : Seq3) :
    Option (Mat × RnnState × Option Mat) :=
  match p.attnAttr with
  | none => none
  | some attnOpt =>
    let embs := input.map p.embedding
    match StackedCell.step training η p.rnnCell embs state with
    | none => none
    | some os =>
      let owa :=
        match attnOpt with
        | some attnF =>
          if cfg.attention = "luong_gate" then
            let r := attnF os.1 (AttCtx.convCtx conv)
            (r.1, some r.2)
          else
            let r := attnF os.1 (AttCtx.embCtx embs)
            (r.1, some r.2)
        | none => (os.1, none)
      some (rnn_decoder.compute_score p owa.1, os.2, owa.2)

/-- The external driver's decode loop: feed each given input token batch to
`rnn_decoder.forward`, threading the running state, and collect every step's
scores and attention weights. -/
def decodeSteps (cfg : EncConfig) (p : DecParams) (training : Bool)
    (η : Nat → Mat → Mat) (conv : Seq3) :
    List (List Nat) → RnnState → Option (List (Mat × Option Mat) × RnnState)
  | [], st => some ([], st)
  | tok :: rest, st =>
    match rnn_decoder.forward cfg p training η tok st conv with
    | none => none
    | some r =>
      match decodeSteps cfg p training η conv rest r.2.1 with
      | none => none
      | some acc => some ((r.1, r.2.2) :: acc.1, acc.2)

/-- Encode, then run `N` sequential decode steps from the returned initial
state over the returned convolutional context. -/
def runPipeline (cfg : EncConfig) (ep : EncParams) (dp : DecParams)
    (training : Bool) (ηE ηD : Nat → Mat → Mat) (inputs : List (List Nat))
    (lengths : List Nat) (toks : List (List Nat)) :
    Option (Seq3 × List (Mat × Option Mat) × RnnState) :=
  match rnn_encoder.forward cfg ep training ηE inputs lengths with
  | none => none
  | some enc =>
    match decodeSteps cfg dp training ηD enc.2.2 toks enc.2.1 with
    | none => none
    | some dec => some (enc.1, dec.1, dec.2)

/-- `stackedGRUGo` instrumented with a count of how many times the
`self.dropout` module is applied. -/
def stackedGRUGoCount (numLayers : Nat) (training : Bool) (η : Nat → Mat → Mat)
    (h0 : List Mat) : Nat → List (Mat → Mat → Mat) → Mat → (Mat × List Mat) × Nat
  | _, [], inp => ((inp, []), 0)
  | i, layer :: rest, inp =>
    let h1i := layer inp (h0.getD i [])
    let inp' := if i + 1 ≠ numLayers then dropoutB training (η i) h1i else h1i
    let r := stackedGRUGoCount numLayers training η h0 (i + 1) rest inp'
    ((r.1.1, h1i :: r.1.2), (if i + 1 ≠ numLayers then 1 else 0) + r.2)

/-- `StackedGRU.forward` with the dropout-application count. -/
def StackedGRU.forwardCount (numLayers : Nat) (layers : List (Mat → Mat → Mat))
    (training : Bool) (η : Nat → Mat → Mat) (input : Mat) (h0 : List Mat) :
    (Mat × List Mat) × Nat :=
  stackedGRUGoCount numLayers training η h0 0 layers input

/-- `stackedLSTMGo` instrumented with a count of how many times the
`self.dropout` module is applied. -/
def stackedLSTMGoCount (numLayers : Nat) (training : Bool) (η : Nat → Mat → Mat)
    (h0 c0 : List Mat) :
    Nat → List (Mat → Mat × Mat → Mat × Mat) → Mat →
      (Mat × (List Mat × List Mat)) × Nat
  | _, [], inp => ((inp, ([], [])), 0)
  | i, layer :: rest, inp =>
    let hc := layer inp (h0.getD i [], c0.getD i [])
    let inp' := if i + 1 ≠ numLayers then dropoutB training (η i) hc.1 else hc.1
    let r := stackedLSTMGoCount numLayers training η h0 c0 (i + 1) rest inp'
    ((r.1.1, (hc.1 :: r.1.2.1, hc.2 :: r.1.2.2)),
      (if i + 1 ≠ numLayers then 1 else 0) + r.2)

/-- `StackedLSTM.forward` with the dropout-application count. -/
def StackedLSTM.forwardCount (numLayers : Nat)
    (layers : List (Mat → Mat × Mat → Mat × Mat)) (training : Bool)
    (η : Nat → Mat → Mat) (input : Mat) (h0 c0 : List Mat) :
    (Mat × (List Mat × List Mat)) × Nat :=
  stackedLSTMGoCount numLayers training η h0 c0 0 layers input

/-- The weight shape with which `rnn_encoder.__init__` constructs
`self.linear = nn.Linear(2*hidden_size, 2*hidden_size)`: a
`(2*hidden_size, 2*hidden_size)` matrix of (arbitrary, learned) entries. -/
def encoderInitLinearW (cfg : EncConfig) (entry : Nat → Nat → ℤ) : Mat :=
  (List.range (2 * cfg.hidden_size)).map (fun i =>
    (List.range (2 * cfg.hidden_size)).map (fun j => entry i j))

/-- A rectangular `(a, b)` nested list. -/
abbrev rect2 (x : List (List α)) (a b : Nat) : Prop :=
  x.length = a ∧ ∀ r ∈ x, r.length = b

/-- A rectangular `(a, b, c)` tensor. -/
abbrev rect3 (x : Seq3) (a b c : Nat) : Prop :=
  x.length = a ∧ ∀ m ∈ x, rect2 m b c

/-- Concrete encoder configuration for exercising the C2 theorem. -/
def cfgC2 : EncConfig :=
  ⟨"gru", 1, 1, 1, 1, 0, false, 10, 10, "None", 1⟩

/-- Concrete encoder parameters whose recurrent network emits `(20, 1, 1)`
outputs. -/
def pC2a : EncParams where
  embedding := fun _ => [0]
  rnn := fun _ => (List.replicate 20 [[0]], .gru [[[0]]])
  w1 := [[[0, 0, 0]]]
  b1 := [0]
  w2 := [[[0, 0, 0]]]
  b2 := [0]
  w3 := [[[0, 0, 0]]]
  b3 := [0]
  selu := fun x => x
  linear_weight := []
  linear_bias := []
  glu := fun v => v

/-- `pC2a` with different unused linear and GLU submodules. -/
def pC10 : EncParams :=
  { pC2a with linear_weight := [[7]], linear_bias := [7], glu := fun _ => [] }

/-- Concrete encoder parameters whose recurrent network emits `(5, 1, 1)`
outputs. -/
def pC2b : EncParams :=
  { pC2a with rnn := fun _ => (List.replicate 5 [[0]], .gru [[[0]]]) }

/-- Concrete encoder parameters whose recurrent network emits `(1, 1, 1)`
outputs. -/
def pC2c : EncParams :=
  { pC2a with rnn := fun _ => ([[[0]]], .gru [[[0]]]) }

/-- A concrete single-layer recurrent cell `h' = h + x + 1` on width-1
vectors, standing in for a framework recurrent cell. -/
def demoCell (h x : Vec) : Vec :=
  [h.getD 0 0 + x.getD 0 0 + 1]

/-- Run `demoCell` over a time-ordered list of input vectors from state `h0`,
returning the per-step hidden states and the final state. -/
def runCellSeq (h0 : Vec) : List Vec → List Vec × Vec
  | [] => ([], h0)
  | x :: xs =>
    let h1 := demoCell h0 x
    let r := runCellSeq h1 xs
    (h1 :: r.1, r.2)

/-- A concrete recurrent network with the interface shape of a single-layer
unidirectional `nn.GRU`: run `demoCell` over every batch column of the
time-major input from zero initial state. -/
def demoRnn (x : Seq3) : Seq3 × RnnState :=
  let runs := (transposeMat x).map (fun c => runCellSeq [0] c)
  (transposeMat (runs.map (fun r => r.1)), .gru [runs.map (fun r => r.2)])

/-- Modelled from the spec: the spec's packed-by-true-length recurrence (the
claimed guarantee that "the recurrence does not let padding positions
influence hidden state propagation") means example `b`'s final hidden state is
the state after folding the cell over exactly the first `lengths[b]` embedded
positions, consuming nothing beyond the true length. -/
def specPackedFinalState (h0 : Vec) (xs : List Vec) : Vec :=
  (runCellSeq h0 xs).2

/-- Concrete configuration for the C1 instances. -/
def cfgC1 : EncConfig :=
  ⟨"gru", 1, 1, 1, 1, 0, false, 10, 10, "None", 1⟩

/-- Concrete encoder parameters built around `demoRnn`. -/
def pC1 : EncParams where
  embedding := fun _ => [1]
  rnn := demoRnn
  w1 := [[[0, 0, 0]]]
  b1 := [0]
  w2 := [[[0, 0, 0]]]
  b2 := [0]
  w3 := [[[0, 0, 0]]]
  b3 := [0]
  selu := fun x => x
  linear_weight := []
  linear_bias := []
  glu := fun v => v

/-- Concrete configuration with the unrecognized attention mode "foo". -/
def cfgC4a : EncConfig :=
  ⟨"gru", 1, 1, 1, 1, 0, false, 10, 10, "foo", 1⟩

/-- Concrete decoder parameters whose attention attribute is unset, exactly as
`rnn_decoder.initAttention` leaves it for an unrecognized mode. -/
def pC4 : DecParams where
  embedding := fun _ => [0]
  rnnCell := .gru 1 [fun _ h => h]
  linear_weight := [[1]]
  linear_bias := [0]
  attnAttr := none

/-- Concrete configuration with the unrecognized attention mode "bar". -/
def cfgC4b : EncConfig :=
  ⟨"gru", 1, 1, 1, 1, 0, false, 10, 10, "bar", 1⟩

/-- The attention attribute as the dispatch computes it for `cfgC4b`. -/
def attnC4b : Option (Option AttnF) :=
  rnn_decoder.initAttention true cfgC4b (fun o _ => (o, o))
    (fun o _ => (o, o)) (fun o _ => (o, o))

/-- Decoder parameters as constructed with `cfgC4b`. -/
def pC4b : DecParams :=
  { pC4 with attnAttr := attnC4b }

/-- Concrete configuration with attention disabled. -/
def cfgC8 : EncConfig :=
  ⟨"gru", 1, 1, 1, 1, 0, false, 10, 10, "None", 1⟩

/-- Concrete decoder parameters as constructed with `cfgC8`. -/
def pC8 : DecParams where
  embedding := fun _ => [0]
  rnnCell := .gru 1 [fun i _ => i]
  linear_weight := [[1]]
  linear_bias := [0]
  attnAttr := some none

/-- Concrete configuration with two decoder layers for the C5 witness. -/
def cfgC5 : EncConfig :=
  ⟨"gru", 1, 1, 2, 2, 0, false, 10, 10, "None", 1⟩

/-- Concrete encoder parameters whose network reports a three-entry GRU
state stack. -/
def pC5g : EncParams where
  embedding := fun _ => [0]
  rnn := fun _ => ([], .gru [[[1]], [[2]], [[3]]])
  w1 := [[[0, 0, 0]]]
  b1 := [0]
  w2 := [[[0, 0, 0]]]
  b2 := [0]
  w3 := [[[0, 0, 0]]]
  b3 := [0]
  selu := fun x => x
  linear_weight := []
  linear_bias := []
  glu := fun v => v

/-- Concrete encoder parameters whose network reports three-entry LSTM hidden
and cell stacks. -/
def pC5l : EncParams :=
  { pC5g with rnn := fun _ =>
      ([], .lstm [[[1]], [[2]], [[3]]] [[[4]], [[5]], [[6]]]) }

/-- A concrete framework GRU cell for the C6 witness. -/
def gruCellA : Mat → Mat → Mat := fun i h => h ++ i

/-- A second concrete framework GRU cell for the C6 witness. -/
def gruCellB : Mat → Mat → Mat := fun i h => i ++ h ++ i

/-- A concrete framework LSTM cell for the C6 witness. -/
def lstmCellA : Mat → Mat × Mat → Mat × Mat := fun i hc => (hc.1 ++ i, hc.2)

/-- A second concrete framework LSTM cell for the C6 witness. -/
def lstmCellB : Mat → Mat × Mat → Mat × Mat :=
  fun i hc => (i ++ hc.1, hc.2 ++ i)

/-- Concrete dropout noise that visibly changes its input, so that in training
mode the dropout placement is observable. -/
def ηC6 : Nat → Mat → Mat := fun k m => [(k : ℤ)] :: m

/-- Concrete bidirectional configuration with hidden size 2 for the C7
witness. -/
def cfgC7 : EncConfig :=
  ⟨"gru", 1, 2, 1, 1, 0, true, 10, 10, "None", 1⟩

/-- Concrete encoder parameters whose network emits one width-4 output
vector. -/
def pC7 : EncParams where
  embedding := fun _ => [0]
  rnn := fun _ => ([[[1, 2, 3, 4]]], .gru [])
  w1 := [[[0, 0, 0]]]
  b1 := [0]
  w2 := [[[0, 0, 0]]]
  b2 := [0]
  w3 := [[[0, 0, 0]]]
  b3 := [0]
  selu := fun x => x
  linear_weight := []
  linear_bias := []
  glu := fun v => v

/-- Concrete configuration for the C3 scenario. -/
def cfgC3 : EncConfig :=
  ⟨"gru", 1, 8, 2, 2, 0, true, 10, 10, "luong_gate", 1⟩

/-- Concrete encoder parameters whose recurrent network emits `(4, 2, 16)`
outputs, as a bidirectional two-layer GRU with hidden size 8 does. -/
def pC3 : EncParams where
  embedding := fun _ => [0]
  rnn := fun _ =>
    (List.replicate 4 (List.replicate 2 (List.replicate 16 0)),
      .gru (List.replicate 4 (List.replicate 2 (List.replicate 8 0))))
  w1 := List.replicate 8 (List.replicate 8 [0, 0, 0])
  b1 := List.replicate 8 0
  w2 := List.replicate 8 (List.replicate 8 [0, 0, 0])
  b2 := List.replicate 8 0
  w3 := List.replicate 8 (List.replicate 8 [0, 0, 0])
  b3 := List.replicate 8 0
  selu := fun x => x
  linear_weight := []
  linear_bias := []
  glu := fun v => v

lemma dropoutB_false (η : Mat → Mat) (m : Mat) : dropoutB false η m = m := rfl

lemma seluMap_rect {f : ℤ → ℤ} {m : Mat} {a b : Nat} (h : rect2 m a b) :
    rect2 (seluMap f m) a b := by
  refine ⟨by simpa [seluMap] using h.1, ?_⟩
  intro r hr
  rcases List.mem_map.1 hr with ⟨r₀, hr₀, rfl⟩
  simpa using h.2 r₀ hr₀

lemma filterMapGetLength {x : List (List α)} {b j : Nat}
    (hx : ∀ r ∈ x, r.length = b) (hj : j < b) :
    (x.filterMap (fun row => row.get? j)).length = x.length := by
  induction x with
  | nil => rfl
  | cons r t ih =>
    have hjr : j < r.length := by rw [hx r (by simp)]; exact hj
    obtain ⟨v, hv⟩ : ∃ v, r.get? j = some v := by
      rw [List.get?_eq_getElem?]
      exact ⟨_, List.getElem?_eq_getElem hjr⟩
    simp only [List.filterMap_cons, hv, List.length_cons]
    rw [ih (fun s hs => hx s (by simp [hs]))]

/-- Shape of a transpose of a non-empty rectangular nested list, together with
provenance of its entries. -/
lemma transposeMat_shape {x : List (List α)} {a b : Nat} (hx : rect2 x a b)
    (ha : 1 ≤ a) :
    (transposeMat x).length = b ∧
      ∀ r ∈ transposeMat x, r.length = a ∧ ∀ v ∈ r, ∃ m ∈ x, v ∈ m := by
  obtain ⟨hlen, hrow⟩ := hx
  have hne : x ≠ [] := by
    intro h; rw [h] at hlen; simp at hlen; omega
  have hhead : (x.headD []).length = b := by
    cases x with
    | nil => exact absurd rfl hne
    | cons r t => exact hrow r (by simp)
  constructor
  · show ((List.range (x.headD []).length).map _).length = b
    rw [List.length_map, List.length_range, hhead]
  · intro r hr
    rcases List.mem_map.1 hr with ⟨j, hj, rfl⟩
    rw [List.mem_range, hhead] at hj
    refine ⟨by rw [filterMapGetLength hrow hj, hlen], ?_⟩
    intro v hv
    rcases List.mem_filterMap.1 hv with ⟨m, hm, hget⟩
    exact ⟨m, hm, List.get?_mem hget⟩

lemma mapOption_some (P : β → Prop) {f : α → Option β} {l : List α}
    (h : ∀ a ∈ l, ∃ y, f a = some y ∧ P y) :
    ∃ ys, mapOption f l = some ys ∧ ys.length = l.length ∧ ∀ y ∈ ys, P y := by
  induction l with
  | nil => exact ⟨[], rfl, rfl, by simp⟩
  | cons a t ih =>
    obtain ⟨y, hy, hPy⟩ := h a (by simp)
    obtain ⟨ys, hys, hlen, hP⟩ := ih (fun a' ha' => h a' (by simp [ha']))
    refine ⟨y :: ys, ?_, by simp [hlen], ?_⟩
    · simp [mapOption, hy, hys]
    · intro z hz
      rcases List.mem_cons.1 hz with h' | h'
      · rw [h']; exact hPy
      · exact hP z h'

lemma mapOption_none_head {f : α → Option β} {a : α} {l : List α}
    (h : f a = none) : mapOption f (a :: l) = none := by
  simp [mapOption, h]

/-- Shape behaviour of the embedded `nn.Conv1d`: with kernel width `k`, it
fails exactly when the padded length is below the effective kernel size, and
otherwise shrinks the length to `L + 2*padding - dilation*(k-1)`. -/
lemma conv1d_shape (pad dil : Nat) {w : List Mat} {b : Vec} {x : Mat}
    {cOut cIn L k : Nat}
    (hw : rect3 w cOut cIn k) (hb : b.length = cOut) (hx : rect2 x cIn L)
    (hcOut : 1 ≤ cOut) (hcIn : 1 ≤ cIn) :
    (L + 2 * pad < dil * (k - 1) + 1 → conv1d w b pad dil x = none) ∧
      (dil * (k - 1) + 1 ≤ L + 2 * pad →
        ∃ y, conv1d w b pad dil x = some y ∧
          rect2 y cOut (L + 2 * pad - dil * (k - 1))) := by
  have hxlen : (x.headD []).length = L := by
    cases x with
    | nil => exfalso; have := hx.1; simp at this; omega
    | cons r t => exact hx.2 r (by simp)
  have hwlen : ((w.headD []).headD []).length = k := by
    cases w with
    | nil => exfalso; have := hw.1; simp at this; omega
    | cons m t =>
      have hm := hw.2 m (by simp)
      cases m with
      | nil => exfalso; have := hm.1; simp at this; omega
      | cons r s => exact hm.2 r (by simp)
  constructor
  · intro hlt
    simp only [conv1d, hxlen, hwlen]
    rw [if_pos hlt]
  · intro hge
    simp only [conv1d, hxlen, hwlen]
    rw [if_neg (by omega)]
    refine ⟨_, rfl, ?_, ?_⟩
    · simp [List.length_zip, hw.1, hb]
    · intro r hr
      rcases List.mem_map.1 hr with ⟨wb, _, rfl⟩
      simp

/-- Shape behaviour of the dilated-convolution stack `self.dconv` in
evaluation mode on a `(H, L)` example: with the constructed layer shapes
(kernel 3, padding 1 in all three layers, dilations 1, 2, 3) it succeeds
exactly when `7 ≤ L`, and then the length shrinks by 6; for `L < 7` one of the
convolutions has non-positive output size and the framework raises. -/
lemma dconvApply_shape (η : Nat → Mat → Mat) {p : EncParams} {x : Mat} {H L : Nat}
    (hw1 : rect3 p.w1 H H 3) (hb1 : p.b1.length = H)
    (hw2 : rect3 p.w2 H H 3) (hb2 : p.b2.length = H)
    (hw3 : rect3 p.w3 H H 3) (hb3 : p.b3.length = H)
    (hH : 1 ≤ H) (hx : rect2 x H L) :
    (7 ≤ L → ∃ y, dconvApply p false η x = some y ∧ rect2 y H (L - 6)) ∧
      (L < 7 → dconvApply p false η x = none) := by
  have c1 := conv1d_shape 1 1 hw1 hb1 hx hH hH
  constructor
  · intro h7
    obtain ⟨y1, hy1, hry1⟩ := c1.2 (by omega)
    have hry1' : rect2 y1 H L := by
      have he : L + 2 * 1 - 1 * (3 - 1) = L := by omega
      rwa [he] at hry1
    have hz1 : rect2 (dropoutB false (η 1) (seluMap p.selu y1)) H L := by
      rw [dropoutB_false]; exact seluMap_rect hry1'
    have c2 := conv1d_shape 1 2 hw2 hb2 hz1 hH hH
    obtain ⟨y2, hy2, hry2⟩ := c2.2 (by omega)
    have hry2' : rect2 y2 H (L - 2) := by
      have he : L + 2 * 1 - 2 * (3 - 1) = L - 2 := by omega
      rwa [he] at hry2
    have hz2 : rect2 (dropoutB false (η 2) (seluMap p.selu y2)) H (L - 2) := by
      rw [dropoutB_false]; exact seluMap_rect hry2'
    have c3 := conv1d_shape 1 3 hw3 hb3 hz2 hH hH
    obtain ⟨y3, hy3, hry3⟩ := c3.2 (by omega)
    have hry3' : rect2 y3 H (L - 6) := by
      have he : L - 2 + 2 * 1 - 3 * (3 - 1) = L - 6 := by omega
      rwa [he] at hry3
    refine ⟨dropoutB false (η 3) (seluMap p.selu y3), ?_, ?_⟩
    · simp only [dconvApply, hy1, hy2, hy3]
    · rw [dropoutB_false]; exact seluMap_rect hry3'
  · intro h7
    by_cases h0 : L = 0
    · have hn := c1.1 (by omega)
      simp only [dconvApply, hn]
    · obtain ⟨y1, hy1, hry1⟩ := c1.2 (by omega)
      have hry1' : rect2 y1 H L := by
        have he : L + 2 * 1 - 1 * (3 - 1) = L := by omega
        rwa [he] at hry1
      have hz1 : rect2 (dropoutB false (η 1) (seluMap p.selu y1)) H L := by
        rw [dropoutB_false]; exact seluMap_rect hry1'
      have c2 := conv1d_shape 1 2 hw2 hb2 hz1 hH hH
      by_cases h3 : L < 3
      · have hn := c2.1 (by omega)
        simp only [dconvApply, hy1, hn]
      · obtain ⟨y2, hy2, hry2⟩ := c2.2 (by omega)
        have hry2' : rect2 y2 H (L - 2) := by
          have he : L + 2 * 1 - 2 * (3 - 1) = L - 2 := by omega
          rwa [he] at hry2
        have hz2 : rect2 (dropoutB false (η 2) (seluMap p.selu y2)) H (L - 2) := by
          rw [dropoutB_false]; exact seluMap_rect hry2'
        have c3 := conv1d_shape 1 3 hw3 hb3 hz2 hH hH
        have hn := c3.1 (by omega)
        simp only [dconvApply, hy1, hy2, hn]

/-- Shape behaviour of the conv-context computation inside `encode`
(evaluation mode): on `(T, B, H)` encoder outputs it yields a batch-major
`(B, T-6, H)` context when `7 ≤ T`, and fails for a non-empty batch when
`T < 7`. -/
lemma encConv_shape {cfg : EncConfig} {p : EncParams} {η : Nat → Mat → Mat}
    {inputs : List (List Nat)} {lengths : List Nat} {T B H : Nat}
    (hw1 : rect3 p.w1 H H 3) (hb1 : p.b1.length = H)
    (hw2 : rect3 p.w2 H H 3) (hb2 : p.b2.length = H)
    (hw3 : rect3 p.w3 H H 3) (hb3 : p.b3.length = H)
    (hH : 1 ≤ H) (hT : 1 ≤ T)
    (hO : rect3 (encOutputs cfg p inputs lengths) T B H) :
    (7 ≤ T → ∃ c, encConv cfg p false η inputs lengths = some c ∧
        c.length = B ∧ ∀ m ∈ c, rect2 m (T - 6) H) ∧
      (T < 7 → 1 ≤ B → encConv cfg p false η inputs lengths = none) := by
  have hO2 : rect2 (encOutputs cfg p inputs lengths) T B :=
    ⟨hO.1, fun m hm => (hO.2 m hm).1⟩
  have ht := transposeMat_shape hO2 hT
  have hexp : ∀ r ∈ transposeMat (encOutputs cfg p inputs lengths),
      rect2 (transposeMat r) H T := by
    intro r hr
    have hrT : rect2 r T H := by
      refine ⟨(ht.2 r hr).1, ?_⟩
      intro v hv
      obtain ⟨m, hm, hvm⟩ := (ht.2 r hr).2 v hv
      exact (hO.2 m hm).2 v hvm
    have := transposeMat_shape hrT hT
    exact ⟨this.1, fun v hv => (this.2 v hv).1⟩
  constructor
  · intro h7
    obtain ⟨cs, hcs, hlen, hP⟩ := mapOption_some (fun y => rect2 y H (T - 6))
      (by
        intro e he
        rcases List.mem_map.1 he with ⟨r, hr, rfl⟩
        exact (dconvApply_shape η hw1 hb1 hw2 hb2 hw3 hb3 hH
          (hexp r hr)).1 h7)
    refine ⟨cs.map transposeMat, ?_, ?_, ?_⟩
    · simp only [encConv, hcs]
    · rw [List.length_map, hlen, List.length_map, ht.1]
    · intro m hm
      rcases List.mem_map.1 hm with ⟨y, hy, rfl⟩
      have hyr := hP y hy
      have := transposeMat_shape hyr hH
      exact ⟨this.1, fun v hv => (this.2 v hv).1⟩
  · intro h7 hB
    obtain ⟨r, rest, hcons⟩ : ∃ r rest,
        transposeMat (encOutputs cfg p inputs lengths) = r :: rest := by
      cases hc : transposeMat (encOutputs cfg p inputs lengths) with
      | nil => exfalso; rw [hc] at ht; have := ht.1; simp at this; omega
      | cons r rest => exact ⟨r, rest, rfl⟩
    have hfail := (dconvApply_shape η hw1 hb1 hw2 hb2 hw3 hb3 hH
      (hexp r (by rw [hcons]; simp))).2 h7
    simp only [encConv, hcons, List.map_cons, mapOption_none_head hfail]

/-- Shape of the bidirectional fold: summing the two width-`H` halves of
width-`2H` feature vectors yields width-`H` vectors, preserving the time and
batch dimensions. -/
lemma bidirSum_rect {o : Seq3} {T B H : Nat} (ho : rect3 o T B (2 * H)) :
    rect3 (bidirSum H o) T B H := by
  refine ⟨by simp [bidirSum, ho.1], ?_⟩
  intro m hm
  rcases List.mem_map.1 hm with ⟨m₀, hm₀, rfl⟩
  refine ⟨by simp [(ho.2 m₀ hm₀).1], ?_⟩
  intro v hv
  rcases List.mem_map.1 hv with ⟨v₀, hv₀, rfl⟩
  have hlen := (ho.2 m₀ hm₀).2 v₀ hv₀
  rw [List.length_zipWith, List.length_take, List.length_drop, hlen]
  omega

/-- C2: the convolutional refinement stage is NOT length-preserving, contrary
to the claim.  With the constructed layer shapes (kernel 3, padding 1,
dilations 1, 2, 3; `H` channels), encoder outputs of time length 20 yield a
conv context of time length 14 (feature width is preserved), and time lengths
5 and 1 make a convolution's output size non-positive, so the stage fails
rather than returning a context of the input length. -/
theorem dconv_not_length_preserving (cfg : EncConfig) (p : EncParams)
    (η : Nat → Mat → Mat) (H : Nat)
    (hw1 : rect3 p.w1 H H 3) (hb1 : p.b1.length = H)
    (hw2 : rect3 p.w2 H H 3) (hb2 : p.b2.length = H)
    (hw3 : rect3 p.w3 H H 3) (hb3 : p.b3.length = H) (hH : 1 ≤ H) :
    (∀ inputs lengths B, rect3 (encOutputs cfg p inputs lengths) 20 B H →
      ∃ c, encConv cfg p false η inputs lengths = some c ∧ c.length = B ∧
        ∀ m ∈ c, m.length = 14 ∧ ∀ v ∈ m, v.length = H) ∧
    (∀ inputs lengths B, rect3 (encOutputs cfg p inputs lengths) 5 B H →
      1 ≤ B → encConv cfg p false η inputs lengths = none) ∧
    (∀ inputs lengths B, rect3 (encOutputs cfg p inputs lengths) 1 B H →
      1 ≤ B → encConv cfg p false η inputs lengths = none) := by
  refine ⟨?_, ?_, ?_⟩
  · intro inputs lengths B hO
    obtain ⟨c, hc, hlen, hm⟩ :=
      (encConv_shape hw1 hb1 hw2 hb2 hw3 hb3 hH (by omega) hO).1 (by omega)
    refine ⟨c, hc, hlen, ?_⟩
    intro m hm'
    refine ⟨?_, (hm m hm').2⟩
    have := (hm m hm').1
    omega
  · intro inputs lengths B hO hB
    exact (encConv_shape hw1 hb1 hw2 hb2 hw3 hb3 hH (by omega) hO).2 (by omega) hB
  · intro inputs lengths B hO hB
    exact (encConv_shape hw1 hb1 hw2 hb2 hw3 hb3 hH (by omega) hO).2 (by omega) hB

/-- Witness for C2's theorem at concrete inputs: time length 20 produces a
length-14 context and time lengths 5 and 1 make the stage fail. -/
theorem dconv_not_length_preserving_witness :
    rect3 pC2a.w1 1 1 3 ∧
    (∃ c, encConv cfgC2 pC2a false (fun _ m => m) [] [] = some c ∧
      c.length = 1 ∧ ∀ m ∈ c, m.length = 14 ∧ ∀ v ∈ m, v.length = 1) ∧
    encConv cfgC2 pC2b false (fun _ m => m) [] [] = none ∧
    encConv cfgC2 pC2c false (fun _ m => m) [] [] = none := by
  refine ⟨by decide, ?_, ?_, ?_⟩
  · exact (dconv_not_length_preserving cfgC2 pC2a (fun _ m => m) 1
      (by decide) (by decide) (by decide) (by decide) (by decide) (by decide)
      (by decide)).1 [] [] 1 (by decide)
  · exact (dconv_not_length_preserving cfgC2 pC2b (fun _ m => m) 1
      (by decide) (by decide) (by decide) (by decide) (by decide) (by decide)
      (by decide)).2.1 [] [] 1 (by decide) (by decide)
  · exact (dconv_not_length_preserving cfgC2 pC2c (fun _ m => m) 1
      (by decide) (by decide) (by decide) (by decide) (by decide) (by decide)
      (by decide)).2.2 [] [] 1 (by decide) (by decide)

/-- C3: in the end-to-end scenario (batch 2, lengths [4, 2] padded to 4,
hidden_size 8, two encoder and decoder layers, bidirectional GRU, luong_gate
attention) the encoder outputs do have shape `(4, 2, 8)`, but `encode` cannot
return the claimed `conv_context`: the third dilated convolution's output size
is non-positive at this length, so the forward call fails. -/
theorem encode_scenario_fails (cfg : EncConfig) (p : EncParams)
    (η : Nat → Mat → Mat) (inputs : List (List Nat))
    (hcell : cfg.cell = "gru") (hh : cfg.hidden_size = 8)
    (hbi : cfg.bidirectional = true)
    (hel : cfg.enc_num_layers = 2) (hdl : cfg.dec_num_layers = 2)
    (hatt : cfg.attention = "luong_gate")
    (hO : rect3 ((encRnnOut cfg p inputs [4, 2]).1) 4 2 16)
    (hw1 : rect3 p.w1 8 8 3) (hb1 : p.b1.length = 8)
    (hw2 : rect3 p.w2 8 8 3) (hb2 : p.b2.length = 8)
    (hw3 : rect3 p.w3 8 8 3) (hb3 : p.b3.length = 8) :
    rect3 (encOutputs cfg p inputs [4, 2]) 4 2 8 ∧
      rnn_encoder.forward cfg p false η inputs [4, 2] = none := by
  have hout : rect3 (encOutputs cfg p inputs [4, 2]) 4 2 8 := by
    have h16 : (16 : Nat) = 2 * 8 := rfl
    rw [h16] at hO
    have := bidirSum_rect hO
    simp only [encOutputs, hbi, if_true, hh]
    exact this
  refine ⟨hout, ?_⟩
  have hnone : encConv cfg p false η inputs [4, 2] = none :=
    (encConv_shape hw1 hb1 hw2 hb2 hw3 hb3 (by omega) (by omega) hout).2
      (by omega) (by omega)
  simp only [rnn_encoder.forward, hnone]

lemma getD_map_lt {l : List α} {f : α → β} {n : Nat} (d : β) (e : α)
    (h : n < l.length) : (l.map f).getD n d = f (l.getD n e) := by
  rw [List.getD_eq_getElem l e h, List.getD_eq_getElem (l.map f) d (by simpa using h),
    List.getElem_map]

/-- Padding-content invariance of the embed-pack-unpack stage: two
equally-shaped token batches that agree at every position below the relevant
example's true length produce the same normalized embedded tensor, because
every position at or beyond the true length is replaced by a zero vector. -/
lemma encEmbeds_padding_invariant (cfg : EncConfig) (p : EncParams)
    {i1 i2 : List (List Nat)} {lengths : List Nat}
    (hT : i1.length = i2.length)
    (hrow : ∀ t, t < i1.length → (i1.getD t []).length = (i2.getD t []).length)
    (hd : ∀ t, t < i1.length → ∀ b, b < lengths.length →
      t < lengths.getD b 0 → (i1.getD t []).getD b 0 = (i2.getD t []).getD b 0) :
    encEmbeds cfg p i1 lengths = encEmbeds cfg p i2 lengths := by
  unfold encEmbeds packUnpack
  refine List.map_congr_left ?_
  intro t ht
  rw [List.mem_range] at ht
  refine List.map_congr_left ?_
  intro b hb
  rw [List.mem_range] at hb
  by_cases htl : t < lengths.getD b 0
  · rw [if_pos htl, if_pos htl]
    by_cases hti : t < i1.length
    · have hti2 : t < i2.length := by omega
      rw [getD_map_lt [] [] hti, getD_map_lt [] [] hti2]
      by_cases hbi : b < (i1.getD t []).length
      · have hbi2 : b < (i2.getD t []).length := by
          rw [← hrow t hti]; exact hbi
        rw [getD_map_lt [] 0 hbi, getD_map_lt [] 0 hbi2, hd t hti b hb htl]
      · have hbi2 : ¬ b < (i2.getD t []).length := by
          rw [← hrow t hti]; exact hbi
        have e1 : ((i1.getD t []).map p.embedding).getD b [] = [] :=
          List.getD_eq_default _ _ (by simpa using hbi)
        have e2 : ((i2.getD t []).map p.embedding).getD b [] = [] :=
          List.getD_eq_default _ _ (by simpa using hbi2)
        rw [e1, e2]
    · have hti2 : ¬ t < i2.length := by omega
      have e1 : (i1.map (fun row => row.map p.embedding)).getD t [] = [] :=
        List.getD_eq_default _ _ (by simpa using hti)
      have e2 : (i2.map (fun row => row.map p.embedding)).getD t [] = [] :=
        List.getD_eq_default _ _ (by simpa using hti2)
      rw [e1, e2]
  · rw [if_neg htl, if_neg htl]

/-- C1 (amended): the encoder packs by true length and immediately unpacks,
which replaces all padding content with zeros before the recurrence runs over
the padded batch; consequently padding content has no effect: two batches
identical up to each example's true length but differing in padding content
yield bit-identical outputs, reduced final states and conv contexts. -/
theorem encoder_padding_content_invariance (cfg : EncConfig) (p : EncParams)
    (training : Bool) (η : Nat → Mat → Mat) {i1 i2 : List (List Nat)}
    {lengths : List Nat}
    (hT : i1.length = i2.length)
    (hrow : ∀ t, t < i1.length → (i1.getD t []).length = (i2.getD t []).length)
    (hd : ∀ t, t < i1.length → ∀ b, b < lengths.length →
      t < lengths.getD b 0 → (i1.getD t []).getD b 0 = (i2.getD t []).getD b 0) :
    rnn_encoder.forward cfg p training η i1 lengths
      = rnn_encoder.forward cfg p training η i2 lengths := by
  have he := encEmbeds_padding_invariant cfg p hT hrow hd
  simp only [rnn_encoder.forward, encConv, encOutputs, encRnnOut,
    encReducedState, he]

/-- C1 (counterexample): the encoder's recurrence is NOT run over a
packed-by-true-length representation.  For an example of true length 3 in a
batch padded to 7, the final hidden state the encoder returns (state kept
evolving over the zeroed padding positions) differs from the final state of a
packed run, which consumes exactly the 3 true positions. -/
theorem encoder_not_packed_counterexample :
    (rnn_encoder.forward cfgC1 pC1 false (fun _ m => m)
        (List.replicate 7 [0, 0]) [7, 3]).map
      (fun r =>
        match r.2.1 with
        | .gru hs => (hs.getD 0 []).getD 1 []
        | .lstm _ _ => [])
    ≠ some (specPackedFinalState [0] (List.replicate 3 (pC1.embedding 0))) := by
  decide

/-- Witness for C1's amended theorem: two concrete batches, lengths `[2, 1]`,
differing only in the second example's padding position, are mapped to equal
encoder results. -/
theorem encoder_padding_content_invariance_witness :
    ([[1, 2], [3, 9]] : List (List Nat)).length = ([[1, 2], [3, 5]] : List (List Nat)).length ∧
    rnn_encoder.forward cfgC1 pC1 false (fun _ m => m) [[1, 2], [3, 9]] [2, 1]
      = rnn_encoder.forward cfgC1 pC1 false (fun _ m => m) [[1, 2], [3, 5]] [2, 1] := by
  refine ⟨rfl, ?_⟩
  exact encoder_padding_content_invariance cfgC1 pC1 false (fun _ m => m)
    (by decide) (by decide) (by decide)

/-- C4 (amended): constructing a decoder with an attention mode outside the
recognized set does not fail at construction and does not silently disable
attention: the dispatch (which has no final else) leaves the `self.attention`
attribute unset, and the failure is deferred to the first forward call, which
fails when it reads the attribute. -/
theorem decoder_unknown_attention_deferred (cfg : EncConfig) (p : DecParams)
    (bahdanauF luongF luongGateF : AttnF) (training : Bool)
    (η : Nat → Mat → Mat) (input : List Nat) (state : RnnState) (conv : Seq3)
    (h1 : cfg.attention ≠ "None") (h2 : cfg.attention ≠ "bahdanau")
    (h3 : cfg.attention ≠ "luong") (h4 : cfg.attention ≠ "luong_gate")
    (hp : p.attnAttr
      = rnn_decoder.initAttention true cfg bahdanauF luongF luongGateF) :
    p.attnAttr = none ∧
      rnn_decoder.forward cfg p training η input state conv = none := by
  have hinit : rnn_decoder.initAttention true cfg bahdanauF luongF luongGateF
      = none := by
    unfold rnn_decoder.initAttention
    rw [if_neg (by simp [h1]), if_neg h2, if_neg h3, if_neg h4]
  have hattr : p.attnAttr = none := hp.trans hinit
  exact ⟨hattr, by simp only [rnn_decoder.forward, hattr]⟩

/-- C4 (counterexample): construction with the unrecognized attention mode
"foo" completes without any error and without disabling attention — the
attribute value is the unset marker `none`, not the disabled marker
`some none` — and the forward call is where the failure happens. -/
theorem decoder_unknown_attention_counterexample :
    rnn_decoder.initAttention true cfgC4a (fun o _ => (o, o))
        (fun o _ => (o, o)) (fun o _ => (o, o)) = none ∧
      rnn_decoder.initAttention true cfgC4a (fun o _ => (o, o))
        (fun o _ => (o, o)) (fun o _ => (o, o)) ≠ some none ∧
      rnn_decoder.forward cfgC4a pC4 false (fun _ m => m) [0]
        (.gru [[[0]]]) [] = none := by
  refine ⟨rfl, ?_, rfl⟩
  intro h
  simp [rnn_decoder.initAttention, cfgC4a] at h

/-- Witness for C4's amended theorem at the concrete mode "bar". -/
theorem decoder_unknown_attention_deferred_witness :
    cfgC4b.attention ≠ "None" ∧ pC4b.attnAttr = none ∧
      rnn_decoder.forward cfgC4b pC4b true (fun _ m => m) [0]
        (.gru [[[0]]]) [] = none := by
  refine ⟨by decide, ?_⟩
  exact decoder_unknown_attention_deferred cfgC4b pC4b
    (fun o _ => (o, o)) (fun o _ => (o, o)) (fun o _ => (o, o)) true
    (fun _ m => m) [0] (.gru [[[0]]]) []
    (by decide) (by decide) (by decide) (by decide) rfl

/-- C8: when the decoder is configured with the disabled attention mode
(`config.attention == 'None'`), every successful forward call returns the
no-attention sentinel `none` as the attention weights, and the whole result —
scores included — is independent of the `conv` argument. -/
theorem attention_none_sentinel (cfg : EncConfig) (p : DecParams) (u : Bool)
    (bahdanauF luongF luongGateF : AttnF) (training : Bool)
    (η : Nat → Mat → Mat) (input : List Nat) (state : RnnState)
    (conv conv' : Seq3)
    (hatt : cfg.attention = "None")
    (hp : p.attnAttr
      = rnn_decoder.initAttention u cfg bahdanauF luongF luongGateF) :
    (∀ r, rnn_decoder.forward cfg p training η input state conv = some r →
        r.2.2 = none) ∧
      rnn_decoder.forward cfg p training η input state conv
        = rnn_decoder.forward cfg p training η input state conv' := by
  have hattr : p.attnAttr = some none := by
    rw [hp]
    unfold rnn_decoder.initAttention
    rw [if_pos (Or.inr hatt)]
  constructor
  · intro r hr
    simp only [rnn_decoder.forward, hattr] at hr
    cases hstep : StackedCell.step training η p.rnnCell
        (input.map p.embedding) state with
    | none => rw [hstep] at hr; exact absurd hr (by simp)
    | some os =>
      rw [hstep] at hr
      simp only [Option.some_inj] at hr
      rw [← hr]
  · simp only [rnn_decoder.forward, hattr]

/-- Witness for C8's theorem: two calls differing only in the conv context
give the same result, whose attention-weights component is the sentinel. -/
theorem attention_none_sentinel_witness :
    cfgC8.attention = "None" ∧
      (∀ r, rnn_decoder.forward cfgC8 pC8 false (fun _ m => m) [0]
          (.gru [[[5]]]) [[[1]]] = some r → r.2.2 = none) ∧
      rnn_decoder.forward cfgC8 pC8 false (fun _ m => m) [0]
          (.gru [[[5]]]) [[[1]]]
        = rnn_decoder.forward cfgC8 pC8 false (fun _ m => m) [0]
          (.gru [[[5]]]) [[[2], [3]]] := by
  refine ⟨rfl, ?_⟩
  exact attention_none_sentinel cfgC8 pC8 true
    (fun o _ => (o, o)) (fun o _ => (o, o)) (fun o _ => (o, o)) false
    (fun _ m => m) [0] (.gru [[[5]]]) [[[1]]] [[[2], [3]]] rfl rfl

lemma everyOther_length (l : List α) : (everyOther l).length = (l.length + 1) / 2 := by
  match l with
  | [] =>
    simp only [everyOther, List.length_nil]
  | [a] =>
    simp only [everyOther, List.length_cons, List.length_nil]
  | a :: b :: rest =>
    show (a :: everyOther rest).length = (rest.length + 2 + 1) / 2
    rw [List.length_cons, everyOther_length rest]
    omega

lemma everyOther_getD (l : List α) (i : Nat) (d : α) (h : 2 * i < l.length) :
    (everyOther l).getD i d = l.getD (2 * i) d := by
  match l, i with
  | [], i => simp at h
  | [a], 0 => rfl
  | [a], i + 1 => simp at h
  | a :: b :: rest, 0 => rfl
  | a :: b :: rest, i + 1 =>
    have hr : 2 * i < rest.length := by
      simp only [List.length_cons] at h
      omega
    have ih := everyOther_getD rest i d hr
    show (a :: everyOther rest).getD (i + 1) d = (a :: b :: rest).getD (2 * (i + 1)) d
    have h2 : 2 * (i + 1) = 2 * i + 1 + 1 := by omega
    rw [h2, List.getD_cons_succ, List.getD_cons_succ, List.getD_cons_succ, ih]

lemma take_getD_lt (l : List α) (n i : Nat) (d : α) (h1 : i < n)
    (h2 : i < l.length) : (l.take n).getD i d = l.getD i d := by
  have hi : i < (l.take n).length := by
    rw [List.length_take]
    omega
  rw [List.getD_eq_getElem _ _ hi, List.getD_eq_getElem _ _ h2, List.getElem_take]

/-- C5: the encoder's final recurrent state is reduced to the decoder's layer
count by taking the first `dec_num_layers` stacked entries when the network is
a GRU, and by taking every other entry (stride 2), independently from both the
hidden and the cell stacks, when it is an LSTM. -/
theorem state_handoff_policy (cfg : EncConfig) (p : EncParams)
    (inputs : List (List Nat)) (lengths : List Nat) :
    (∀ h, (encRnnOut cfg p inputs lengths).2 = .gru h →
      encReducedState cfg p inputs lengths = .gru (h.take cfg.dec_num_layers) ∧
      (h.take cfg.dec_num_layers).length = min cfg.dec_num_layers h.length ∧
      ∀ i, i < cfg.dec_num_layers → i < h.length →
        (h.take cfg.dec_num_layers).getD i [] = h.getD i []) ∧
    (∀ h c, (encRnnOut cfg p inputs lengths).2 = .lstm h c →
      encReducedState cfg p inputs lengths
        = .lstm (everyOther h) (everyOther c) ∧
      (everyOther h).length = (h.length + 1) / 2 ∧
      (everyOther c).length = (c.length + 1) / 2 ∧
      (∀ i, 2 * i < h.length →
        (everyOther h).getD i [] = h.getD (2 * i) []) ∧
      (∀ i, 2 * i < c.length →
        (everyOther c).getD i [] = c.getD (2 * i) [])) := by
  constructor
  · intro h hst
    refine ⟨?_, List.length_take _ _, ?_⟩
    · unfold encReducedState
      rw [hst]
      rfl
    · intro i hi hil
      exact take_getD_lt h cfg.dec_num_layers i [] hi hil
  · intro h c hst
    refine ⟨?_, everyOther_length h, everyOther_length c, ?_, ?_⟩
    · unfold encReducedState
      rw [hst]
      rfl
    · intro i hi
      exact everyOther_getD h i [] hi
    · intro i hi
      exact everyOther_getD c i [] hi

/-- Witness for C5's theorem: the three-entry GRU stack is truncated to its
first two entries, and the LSTM stacks keep entries 0 and 2. -/
theorem state_handoff_policy_witness :
    (encRnnOut cfgC5 pC5g [] []).2 = .gru [[[1]], [[2]], [[3]]] ∧
    encReducedState cfgC5 pC5g [] []
      = .gru ([[[1]], [[2]], [[3]]].take cfgC5.dec_num_layers) ∧
    ([[[1]], [[2]], [[3]]] : Seq3).take cfgC5.dec_num_layers = [[[1]], [[2]]] ∧
    encReducedState cfgC5 pC5l [] []
      = .lstm (everyOther [[[1]], [[2]], [[3]]]) (everyOther [[[4]], [[5]], [[6]]]) ∧
    everyOther ([[[1]], [[2]], [[3]]] : Seq3) = [[[1]], [[3]]] ∧
    everyOther ([[[4]], [[5]], [[6]]] : Seq3) = [[[4]], [[6]]] := by
  refine ⟨rfl, ?_, by decide, ?_, by decide, by decide⟩
  · exact ((state_handoff_policy cfgC5 pC5g [] []).1 [[[1]], [[2]], [[3]]] rfl).1
  · exact ((state_handoff_policy cfgC5 pC5l [] []).2 [[[1]], [[2]], [[3]]]
      [[[4]], [[5]], [[6]]] rfl).1

lemma zipWith_take_drop_length (v : Vec) (H : Nat) (hv : v.length = 2 * H) :
    ((v.take H).zipWith (· + ·) (v.drop H)).length = H := by
  rw [List.length_zipWith, List.length_take, List.length_drop, hv]
  omega

lemma zipWith_take_drop_getD (v : Vec) (H j : Nat) (hv : v.length = 2 * H)
    (hj : j < H) :
    ((v.take H).zipWith (· + ·) (v.drop H)).getD j 0
      = v.getD j 0 + v.getD (H + j) 0 := by
  have hjl : j < ((v.take H).zipWith (· + ·) (v.drop H)).length := by
    rw [zipWith_take_drop_length v H hv]; exact hj
  rw [List.getD_eq_getElem _ _ hjl, List.getElem_zipWith, List.getElem_take,
    List.getElem_drop,
    List.getD_eq_getElem _ _ (by omega : j < v.length),
    List.getD_eq_getElem _ _ (by omega : H + j < v.length)]

/-- C7: when the encoder is configured bidirectional, every per-position
output vector is the elementwise sum of the forward half and the backward
half of the recurrent network's output vector — not their concatenation — so
whenever the network emits width `2*hidden_size` the encoder output width is
`hidden_size`, with entry `j` equal to `v[j] + v[hidden_size + j]`. -/
theorem bidirectional_sum_fold (cfg : EncConfig) (p : EncParams)
    (inputs : List (List Nat)) (lengths : List Nat)
    (hbi : cfg.bidirectional = true) :
    encOutputs cfg p inputs lengths
      = bidirSum cfg.hidden_size (encRnnOut cfg p inputs lengths).1 ∧
    ∀ t b, t < (encRnnOut cfg p inputs lengths).1.length →
      b < ((encRnnOut cfg p inputs lengths).1.getD t []).length →
      ((encOutputs cfg p inputs lengths).getD t []).getD b []
        = ((((encRnnOut cfg p inputs lengths).1.getD t []).getD b []).take
            cfg.hidden_size).zipWith (· + ·)
            ((((encRnnOut cfg p inputs lengths).1.getD t []).getD b []).drop
              cfg.hidden_size) ∧
      ((((encRnnOut cfg p inputs lengths).1.getD t []).getD b []).length
          = 2 * cfg.hidden_size →
        (((encOutputs cfg p inputs lengths).getD t []).getD b []).length
            = cfg.hidden_size ∧
        ∀ j, j < cfg.hidden_size →
          (((encOutputs cfg p inputs lengths).getD t []).getD b []).getD j 0
            = (((encRnnOut cfg p inputs lengths).1.getD t []).getD b []).getD j 0
              + (((encRnnOut cfg p inputs lengths).1.getD t []).getD b []).getD
                (cfg.hidden_size + j) 0) := by
  have hout : encOutputs cfg p inputs lengths
      = bidirSum cfg.hidden_size (encRnnOut cfg p inputs lengths).1 := by
    unfold encOutputs
    rw [hbi]
    rfl
  refine ⟨hout, ?_⟩
  intro t b ht hb
  have hrow : (encOutputs cfg p inputs lengths).getD t []
      = ((encRnnOut cfg p inputs lengths).1.getD t []).map
          (fun v => (v.take cfg.hidden_size).zipWith (· + ·)
            (v.drop cfg.hidden_size)) := by
    rw [hout]
    unfold bidirSum
    exact getD_map_lt [] [] ht
  have hvec : ((encOutputs cfg p inputs lengths).getD t []).getD b []
      = ((((encRnnOut cfg p inputs lengths).1.getD t []).getD b []).take
          cfg.hidden_size).zipWith (· + ·)
          ((((encRnnOut cfg p inputs lengths).1.getD t []).getD b []).drop
            cfg.hidden_size) := by
    rw [hrow]
    exact getD_map_lt [] [] hb
  refine ⟨hvec, ?_⟩
  intro hv
  constructor
  · rw [hvec]
    exact zipWith_take_drop_length _ cfg.hidden_size hv
  · intro j hj
    rw [hvec]
    exact zipWith_take_drop_getD _ cfg.hidden_size j hv hj

lemma stackedGRUGo_cons (n : Nat) (training : Bool) (η : Nat → Mat → Mat)
    (h0 : List Mat) (i : Nat) (layer : Mat → Mat → Mat)
    (rest : List (Mat → Mat → Mat)) (inp : Mat) :
    stackedGRUGo n training η h0 i (layer :: rest) inp
      = ((stackedGRUGo n training η h0 (i + 1) rest
            (if i + 1 ≠ n then dropoutB training (η i) (layer inp (h0.getD i []))
             else layer inp (h0.getD i []))).1,
         layer inp (h0.getD i [])
           :: (stackedGRUGo n training η h0 (i + 1) rest
             (if i + 1 ≠ n then dropoutB training (η i) (layer inp (h0.getD i []))
              else layer inp (h0.getD i []))).2) := rfl

/-- Data-flow of one `StackedGRU` step, stated for the tail starting at layer
index `i`: the stacked result collects every layer's raw new hidden vector;
layer 0 of the tail consumes the incoming input; every later layer consumes
the dropout of the previous raw hidden vector (dropout applies because the
transition index is below `num_layers`); and the returned output is the last
raw hidden vector, with no dropout applied after it. -/
lemma stackedGRUGo_spec (n : Nat) (training : Bool) (η : Nat → Mat → Mat)
    (h0 : List Mat) (ls : List (Mat → Mat → Mat)) :
    ∀ (i : Nat) (inp : Mat), i + ls.length = n →
      (stackedGRUGo n training η h0 i ls inp).2.length = ls.length ∧
      (1 ≤ ls.length →
        (stackedGRUGo n training η h0 i ls inp).2.getD 0 []
          = (ls.getD 0 (fun _ _ => [])) inp (h0.getD i [])) ∧
      (∀ j, j + 1 < ls.length →
        (stackedGRUGo n training η h0 i ls inp).2.getD (j + 1) []
          = (ls.getD (j + 1) (fun _ _ => []))
              (dropoutB training (η (i + j))
                ((stackedGRUGo n training η h0 i ls inp).2.getD j []))
              (h0.getD (i + j + 1) [])) ∧
      (1 ≤ ls.length →
        (stackedGRUGo n training η h0 i ls inp).1
          = (stackedGRUGo n training η h0 i ls inp).2.getD (ls.length - 1) []) := by
  induction ls with
  | nil =>
    intro i inp hn
    exact ⟨rfl, by intro h; simp at h, by intro j hj; simp at hj,
      by intro h; simp at h⟩
  | cons layer rest ih =>
    intro i inp hn
    have hn' : (i + 1) + rest.length = n := by
      simp only [List.length_cons] at hn
      omega
    obtain ⟨ihlen, ihbase, ihtrans, ihlast⟩ :=
      ih (i + 1) (if i + 1 ≠ n then dropoutB training (η i)
        (layer inp (h0.getD i [])) else layer inp (h0.getD i [])) hn'
    rw [stackedGRUGo_cons]
    refine ⟨?_, ?_, ?_, ?_⟩
    · rw [List.length_cons, List.length_cons, ihlen]
    · intro _
      rfl
    · intro j hj
      rw [List.length_cons] at hj
      cases j with
      | zero =>
        have hrest : 1 ≤ rest.length := by omega
        have hne : i + 1 ≠ n := by omega
        rw [List.getD_cons_succ, List.getD_cons_succ, List.getD_cons_zero]
        rw [ihbase hrest, if_pos hne]
        simp
      | succ j' =>
        have hj' : j' + 1 < rest.length := by omega
        rw [List.getD_cons_succ, List.getD_cons_succ, List.getD_cons_succ]
        have harith1 : i + (j' + 1) = (i + 1) + j' := by omega
        rw [harith1]
        exact ihtrans j' hj'
    · intro _
      cases rest with
      | nil =>
        have hne : ¬ i + 1 ≠ n := by
          simp only [List.length_cons, List.length_nil] at hn
          omega
        rw [if_neg hne]
        rfl
      | cons l2 r2 =>
        have hrest : 1 ≤ (l2 :: r2).length := by simp
        have hl := ihlast hrest
        simp only [List.length_cons, Nat.add_sub_cancel] at hl ⊢
        rw [List.getD_cons_succ]
        exact hl

lemma stackedLSTMGo_cons (n : Nat) (training : Bool) (η : Nat → Mat → Mat)
    (h0 c0 : List Mat) (i : Nat) (layer : Mat → Mat × Mat → Mat × Mat)
    (rest : List (Mat → Mat × Mat → Mat × Mat)) (inp : Mat) :
    stackedLSTMGo n training η h0 c0 i (layer :: rest) inp
      = ((stackedLSTMGo n training η h0 c0 (i + 1) rest
            (if i + 1 ≠ n then dropoutB training (η i)
              (layer inp (h0.getD i [], c0.getD i [])).1
             else (layer inp (h0.getD i [], c0.getD i [])).1)).1,
         ((layer inp (h0.getD i [], c0.getD i [])).1
            :: (stackedLSTMGo n training η h0 c0 (i + 1) rest
              (if i + 1 ≠ n then dropoutB training (η i)
                (layer inp (h0.getD i [], c0.getD i [])).1
               else (layer inp (h0.getD i [], c0.getD i [])).1)).2.1,
          (layer inp (h0.getD i [], c0.getD i [])).2
            :: (stackedLSTMGo n training η h0 c0 (i + 1) rest
              (if i + 1 ≠ n then dropoutB training (η i)
                (layer inp (h0.getD i [], c0.getD i [])).1
               else (layer inp (h0.getD i [], c0.getD i [])).1)).2.2)) := rfl

/-- Data-flow of one `StackedLSTM` step for the tail starting at layer index
`i`, mirroring `stackedGRUGo_spec`: both stacks collect the raw per-layer new
hidden and cell vectors, each inter-layer transition feeds the dropout of the
previous raw hidden vector, and the returned output is the last raw hidden
vector. -/
lemma stackedLSTMGo_spec (n : Nat) (training : Bool) (η : Nat → Mat → Mat)
    (h0 c0 : List Mat) (ls : List (Mat → Mat × Mat → Mat × Mat)) :
    ∀ (i : Nat) (inp : Mat), i + ls.length = n →
      (stackedLSTMGo n training η h0 c0 i ls inp).2.1.length = ls.length ∧
      (stackedLSTMGo n training η h0 c0 i ls inp).2.2.length = ls.length ∧
      (1 ≤ ls.length →
        ((stackedLSTMGo n training η h0 c0 i ls inp).2.1.getD 0 [],
          (stackedLSTMGo n training η h0 c0 i ls inp).2.2.getD 0 [])
          = (ls.getD 0 (fun _ _ => ([], []))) inp
              (h0.getD i [], c0.getD i [])) ∧
      (∀ j, j + 1 < ls.length →
        ((stackedLSTMGo n training η h0 c0 i ls inp).2.1.getD (j + 1) [],
          (stackedLSTMGo n training η h0 c0 i ls inp).2.2.getD (j + 1) [])
          = (ls.getD (j + 1) (fun _ _ => ([], [])))
              (dropoutB training (η (i + j))
                ((stackedLSTMGo n training η h0 c0 i ls inp).2.1.getD j []))
              (h0.getD (i + j + 1) [], c0.getD (i + j + 1) [])) ∧
      (1 ≤ ls.length →
        (stackedLSTMGo n training η h0 c0 i ls inp).1
          = (stackedLSTMGo n training η h0 c0 i ls inp).2.1.getD
              (ls.length - 1) []) := by
  induction ls with
  | nil =>
    intro i inp hn
    exact ⟨rfl, rfl, by intro h; simp at h, by intro j hj; simp at hj,
      by intro h; simp at h⟩
  | cons layer rest ih =>
    intro i inp hn
    have hn' : (i + 1) + rest.length = n := by
      simp only [List.length_cons] at hn
      omega
    obtain ⟨ihlen1, ihlen2, ihbase, ihtrans, ihlast⟩ :=
      ih (i + 1) (if i + 1 ≠ n then dropoutB training (η i)
        (layer inp (h0.getD i [], c0.getD i [])).1
       else (layer inp (h0.getD i [], c0.getD i [])).1) hn'
    rw [stackedLSTMGo_cons]
    refine ⟨?_, ?_, ?_, ?_, ?_⟩
    · rw [List.length_cons, List.length_cons, ihlen1]
    · rw [List.length_cons, List.length_cons, ihlen2]
    · intro _
      rfl
    · intro j hj
      rw [List.length_cons] at hj
      cases j with
      | zero =>
        have hrest : 1 ≤ rest.length := by omega
        have hne : i + 1 ≠ n := by omega
        rw [List.getD_cons_succ, List.getD_cons_succ, List.getD_cons_succ,
          List.getD_cons_zero]
        rw [ihbase hrest, if_pos hne]
        simp
      | succ j' =>
        have hj' : j' + 1 < rest.length := by omega
        rw [List.getD_cons_succ, List.getD_cons_succ, List.getD_cons_succ,
          List.getD_cons_succ]
        have harith1 : i + (j' + 1) = (i + 1) + j' := by omega
        rw [harith1]
        exact ihtrans j' hj'
    · intro _
      cases rest with
      | nil =>
        have hne : ¬ i + 1 ≠ n := by
          simp only [List.length_cons, List.length_nil] at hn
          omega
        rw [if_neg hne]
        rfl
      | cons l2 r2 =>
        have hrest : 1 ≤ (l2 :: r2).length := by simp
        have hl := ihlast hrest
        simp only [List.length_cons, Nat.add_sub_cancel] at hl ⊢
        rw [List.getD_cons_succ]
        exact hl

lemma stackedGRUGoCount_agree (n : Nat) (training : Bool) (η : Nat → Mat → Mat)
    (h0 : List Mat) (ls : List (Mat → Mat → Mat)) :
    ∀ (i : Nat) (inp : Mat),
      (stackedGRUGoCount n training η h0 i ls inp).1
        = stackedGRUGo n training η h0 i ls inp := by
  induction ls with
  | nil => intro i inp; rfl
  | cons layer rest ih =>
    intro i inp
    simp only [stackedGRUGoCount, stackedGRUGo, ih]

lemma stackedGRUGoCount_cons (n : Nat) (training : Bool) (η : Nat → Mat → Mat)
    (h0 : List Mat) (i : Nat) (layer : Mat → Mat → Mat)
    (rest : List (Mat → Mat → Mat)) (inp : Mat) :
    (stackedGRUGoCount n training η h0 i (layer :: rest) inp).2
      = (if i + 1 ≠ n then 1 else 0)
        + (stackedGRUGoCount n training η h0 (i + 1) rest
            (if i + 1 ≠ n then dropoutB training (η i) (layer inp (h0.getD i []))
             else layer inp (h0.getD i []))).2 := rfl

lemma stackedGRUGoCount_count (n : Nat) (training : Bool) (η : Nat → Mat → Mat)
    (h0 : List Mat) (ls : List (Mat → Mat → Mat)) :
    ∀ (i : Nat) (inp : Mat), 1 ≤ ls.length → i + ls.length = n →
      (stackedGRUGoCount n training η h0 i ls inp).2 = ls.length - 1 := by
  induction ls with
  | nil => intro i inp h; simp at h
  | cons layer rest ih =>
    intro i inp _ hn
    rw [stackedGRUGoCount_cons]
    cases rest with
    | nil =>
      have hne : ¬ i + 1 ≠ n := by
        simp only [List.length_cons, List.length_nil] at hn
        omega
      rw [if_neg hne]
      rfl
    | cons l2 r2 =>
      have hne : i + 1 ≠ n := by
        simp only [List.length_cons] at hn
        omega
      have hcnt := ih (i + 1)
        (if i + 1 ≠ n then dropoutB training (η i) (layer inp (h0.getD i []))
         else layer inp (h0.getD i [])) (by simp)
        (by simp only [List.length_cons] at hn ⊢; omega)
      rw [if_pos hne, hcnt]
      simp only [List.length_cons]
      omega

lemma stackedLSTMGoCount_agree (n : Nat) (training : Bool)
    (η : Nat → Mat → Mat) (h0 c0 : List Mat)
    (ls : List (Mat → Mat × Mat → Mat × Mat)) :
    ∀ (i : Nat) (inp : Mat),
      (stackedLSTMGoCount n training η h0 c0 i ls inp).1
        = stackedLSTMGo n training η h0 c0 i ls inp := by
  induction ls with
  | nil => intro i inp; rfl
  | cons layer rest ih =>
    intro i inp
    simp only [stackedLSTMGoCount, stackedLSTMGo, ih]

lemma stackedLSTMGoCount_cons (n : Nat) (training : Bool)
    (η : Nat → Mat → Mat) (h0 c0 : List Mat) (i : Nat)
    (layer : Mat → Mat × Mat → Mat × Mat)
    (rest : List (Mat → Mat × Mat → Mat × Mat)) (inp : Mat) :
    (stackedLSTMGoCount n training η h0 c0 i (layer :: rest) inp).2
      = (if i + 1 ≠ n then 1 else 0)
        + (stackedLSTMGoCount n training η h0 c0 (i + 1) rest
            (if i + 1 ≠ n then dropoutB training (η i)
              (layer inp (h0.getD i [], c0.getD i [])).1
             else (layer inp (h0.getD i [], c0.getD i [])).1)).2 := rfl

lemma stackedLSTMGoCount_count (n : Nat) (training : Bool)
    (η : Nat → Mat → Mat) (h0 c0 : List Mat)
    (ls : List (Mat → Mat × Mat → Mat × Mat)) :
    ∀ (i : Nat) (inp : Mat), 1 ≤ ls.length → i + ls.length = n →
      (stackedLSTMGoCount n training η h0 c0 i ls inp).2 = ls.length - 1 := by
  induction ls with
  | nil => intro i inp h; simp at h
  | cons layer rest ih =>
    intro i inp _ hn
    rw [stackedLSTMGoCount_cons]
    cases rest with
    | nil =>
      have hne : ¬ i + 1 ≠ n := by
        simp only [List.length_cons, List.length_nil] at hn
        omega
      rw [if_neg hne]
      rfl
    | cons l2 r2 =>
      have hne : i + 1 ≠ n := by
        simp only [List.length_cons] at hn
        omega
      have hcnt := ih (i + 1)
        (if i + 1 ≠ n then dropoutB training (η i)
          (layer inp (h0.getD i [], c0.getD i [])).1
         else (layer inp (h0.getD i [], c0.getD i [])).1) (by simp)
        (by simp only [List.length_cons] at hn ⊢; omega)
      rw [if_pos hne, hcnt]
      simp only [List.length_cons]
      omega

/-- C6: in one step of the stacked recurrent cells (both the GRU and the LSTM
variant), the `self.dropout` module is applied to exactly `num_layers - 1`
inter-layer transitions — to each layer's raw new hidden vector as it feeds
the next layer — and never to the final layer's output: the returned output is
the last layer's raw new hidden vector, and the returned state stacks every
per-layer raw new hidden (and, for LSTM, cell) vector. -/
theorem stacked_cell_dropout_policy (training : Bool) (η : Nat → Mat → Mat) :
    (∀ (n : Nat) (layers : List (Mat → Mat → Mat)) (input : Mat)
        (h0 : List Mat), layers.length = n → 1 ≤ n →
      (StackedGRU.forwardCount n layers training η input h0).1
          = StackedGRU.forward n layers training η input h0 ∧
      (StackedGRU.forwardCount n layers training η input h0).2 = n - 1 ∧
      (StackedGRU.forward n layers training η input h0).2.length = n ∧
      (StackedGRU.forward n layers training η input h0).2.getD 0 []
          = (layers.getD 0 (fun _ _ => [])) input (h0.getD 0 []) ∧
      (∀ j, j + 1 < n →
        (StackedGRU.forward n layers training η input h0).2.getD (j + 1) []
          = (layers.getD (j + 1) (fun _ _ => []))
              (dropoutB training (η j)
                ((StackedGRU.forward n layers training η input h0).2.getD j []))
              (h0.getD (j + 1) [])) ∧
      (StackedGRU.forward n layers training η input h0).1
          = (StackedGRU.forward n layers training η input h0).2.getD
              (n - 1) []) ∧
    (∀ (n : Nat) (layers : List (Mat → Mat × Mat → Mat × Mat)) (input : Mat)
        (h0 c0 : List Mat), layers.length = n → 1 ≤ n →
      (StackedLSTM.forwardCount n layers training η input h0 c0).1
          = StackedLSTM.forward n layers training η input h0 c0 ∧
      (StackedLSTM.forwardCount n layers training η input h0 c0).2 = n - 1 ∧
      (StackedLSTM.forward n layers training η input h0 c0).2.1.length = n ∧
      (StackedLSTM.forward n layers training η input h0 c0).2.2.length = n ∧
      ((StackedLSTM.forward n layers training η input h0 c0).2.1.getD 0 [],
        (StackedLSTM.forward n layers training η input h0 c0).2.2.getD 0 [])
          = (layers.getD 0 (fun _ _ => ([], []))) input
              (h0.getD 0 [], c0.getD 0 []) ∧
      (∀ j, j + 1 < n →
        ((StackedLSTM.forward n layers training η input h0 c0).2.1.getD
            (j + 1) [],
          (StackedLSTM.forward n layers training η input h0 c0).2.2.getD
            (j + 1) [])
          = (layers.getD (j + 1) (fun _ _ => ([], [])))
              (dropoutB training (η j)
                ((StackedLSTM.forward n layers training η input h0 c0).2.1.getD
                  j []))
              (h0.getD (j + 1) [], c0.getD (j + 1) [])) ∧
      (StackedLSTM.forward n layers training η input h0 c0).1
          = (StackedLSTM.forward n layers training η input h0 c0).2.1.getD
              (n - 1) []) := by
  constructor
  · intro n layers input h0 hlen hn
    have h0n : 0 + layers.length = n := by omega
    obtain ⟨slen, sbase, strans, slast⟩ :=
      stackedGRUGo_spec n training η h0 layers 0 input h0n
    have hfc : StackedGRU.forwardCount n layers training η input h0
        = (stackedGRUGoCount n training η h0 0 layers input) := rfl
    refine ⟨?_, ?_, ?_, ?_, ?_, ?_⟩
    · rw [hfc, stackedGRUGoCount_agree]
      rfl
    · rw [hfc, stackedGRUGoCount_count n training η h0 layers 0 input
        (by omega) h0n, hlen]
    · show (stackedGRUGo n training η h0 0 layers input).2.length = n
      rw [slen, hlen]
    · have := sbase (by omega)
      simpa using this
    · intro j hj
      have := strans j (by omega)
      simpa using this
    · have := slast (by omega)
      rw [hlen] at this
      exact this
  · intro n layers input h0 c0 hlen hn
    have h0n : 0 + layers.length = n := by omega
    obtain ⟨slen1, slen2, sbase, strans, slast⟩ :=
      stackedLSTMGo_spec n training η h0 c0 layers 0 input h0n
    have hfc : StackedLSTM.forwardCount n layers training η input h0 c0
        = (stackedLSTMGoCount n training η h0 c0 0 layers input) := rfl
    refine ⟨?_, ?_, ?_, ?_, ?_, ?_, ?_⟩
    · rw [hfc, stackedLSTMGoCount_agree]
      rfl
    · rw [hfc, stackedLSTMGoCount_count n training η h0 c0 layers 0 input
        (by omega) h0n, hlen]
    · show (stackedLSTMGo n training η h0 c0 0 layers input).2.1.length = n
      rw [slen1, hlen]
    · show (stackedLSTMGo n training η h0 c0 0 layers input).2.2.length = n
      rw [slen2, hlen]
    · have := sbase (by omega)
      simpa using this
    · intro j hj
      have := strans j (by omega)
      simpa using this
    · have := slast (by omega)
      rw [hlen] at this
      exact this

/-- Witness for C6's theorem with two concrete GRU and LSTM layers in training
mode. -/
theorem stacked_cell_dropout_policy_witness :
    ([gruCellA, gruCellB].length = 2 ∧ 1 ≤ 2) ∧
    (StackedGRU.forwardCount 2 [gruCellA, gruCellB] true ηC6 [[1]]
        [[[2]], [[3]]]).2 = 2 - 1 ∧
    (StackedGRU.forward 2 [gruCellA, gruCellB] true ηC6 [[1]]
        [[[2]], [[3]]]).2.length = 2 ∧
    (StackedGRU.forward 2 [gruCellA, gruCellB] true ηC6 [[1]]
        [[[2]], [[3]]]).1
      = (StackedGRU.forward 2 [gruCellA, gruCellB] true ηC6 [[1]]
        [[[2]], [[3]]]).2.getD (2 - 1) [] ∧
    (StackedLSTM.forwardCount 2 [lstmCellA, lstmCellB] true ηC6 [[1]]
        [[[2]], [[3]]] [[[4]], [[5]]]).2 = 2 - 1 ∧
    (StackedLSTM.forward 2 [lstmCellA, lstmCellB] true ηC6 [[1]]
        [[[2]], [[3]]] [[[4]], [[5]]]).1
      = (StackedLSTM.forward 2 [lstmCellA, lstmCellB] true ηC6 [[1]]
        [[[2]], [[3]]] [[[4]], [[5]]]).2.1.getD (2 - 1) [] := by
  have hg := (stacked_cell_dropout_policy true ηC6).1 2 [gruCellA, gruCellB]
    [[1]] [[[2]], [[3]]] rfl (by omega)
  have hl := (stacked_cell_dropout_policy true ηC6).2 2 [lstmCellA, lstmCellB]
    [[1]] [[[2]], [[3]]] [[[4]], [[5]]] rfl (by omega)
  exact ⟨⟨rfl, by omega⟩, hg.2.1, hg.2.2.1, hg.2.2.2.2.2, hl.2.1,
    hl.2.2.2.2.2.2⟩

lemma dconvApply_eval_noise (p : EncParams) (η η' : Nat → Mat → Mat) :
    dconvApply p false η = dconvApply p false η' := by
  funext x
  simp only [dconvApply, dropoutB_false]

lemma encoder_forward_eval_noise (cfg : EncConfig) (p : EncParams)
    (η η' : Nat → Mat → Mat) (inputs : List (List Nat)) (lengths : List Nat) :
    rnn_encoder.forward cfg p false η inputs lengths
      = rnn_encoder.forward cfg p false η' inputs lengths := by
  simp only [rnn_encoder.forward, encConv, dconvApply_eval_noise p η η']

lemma stackedGRUGo_eval_noise (n : Nat) (h0 : List Mat)
    (ls : List (Mat → Mat → Mat)) :
    ∀ (i : Nat) (inp : Mat) (η η' : Nat → Mat → Mat),
      stackedGRUGo n false η h0 i ls inp
        = stackedGRUGo n false η' h0 i ls inp := by
  induction ls with
  | nil => intro i inp η η'; rfl
  | cons layer rest ih =>
    intro i inp η η'
    rw [stackedGRUGo_cons, stackedGRUGo_cons]
    simp only [dropoutB_false, ite_self]
    rw [ih (i + 1) (layer inp (h0.getD i [])) η η']

lemma stackedLSTMGo_eval_noise (n : Nat) (h0 c0 : List Mat)
    (ls : List (Mat → Mat × Mat → Mat × Mat)) :
    ∀ (i : Nat) (inp : Mat) (η η' : Nat → Mat → Mat),
      stackedLSTMGo n false η h0 c0 i ls inp
        = stackedLSTMGo n false η' h0 c0 i ls inp := by
  induction ls with
  | nil => intro i inp η η'; rfl
  | cons layer rest ih =>
    intro i inp η η'
    rw [stackedLSTMGo_cons, stackedLSTMGo_cons]
    simp only [dropoutB_false, ite_self]
    rw [ih (i + 1) (layer inp (h0.getD i [], c0.getD i [])).1 η η']

lemma step_eval_noise (cell : StackedCell) (η η' : Nat → Mat → Mat)
    (inp : Mat) (st : RnnState) :
    StackedCell.step false η cell inp st
      = StackedCell.step false η' cell inp st := by
  cases cell with
  | gru n ls =>
    cases st with
    | gru h =>
      show some ((stackedGRUGo n false η h 0 ls inp).1,
          RnnState.gru (stackedGRUGo n false η h 0 ls inp).2) = _
      rw [stackedGRUGo_eval_noise n h ls 0 inp η η']
      rfl
    | lstm h c => rfl
  | lstm n ls =>
    cases st with
    | gru h => rfl
    | lstm h c =>
      show some ((stackedLSTMGo n false η h c 0 ls inp).1,
          RnnState.lstm (stackedLSTMGo n false η h c 0 ls inp).2.1
            (stackedLSTMGo n false η h c 0 ls inp).2.2) = _
      rw [stackedLSTMGo_eval_noise n h c ls 0 inp η η']
      rfl

lemma decoder_forward_eval_noise (cfg : EncConfig) (p : DecParams)
    (η η' : Nat → Mat → Mat) (input : List Nat) (state : RnnState)
    (conv : Seq3) :
    rnn_decoder.forward cfg p false η input state conv
      = rnn_decoder.forward cfg p false η' input state conv := by
  simp only [rnn_decoder.forward,
    step_eval_noise p.rnnCell η η' (input.map p.embedding) state]

lemma decodeSteps_eval_noise (cfg : EncConfig) (p : DecParams) (conv : Seq3) :
    ∀ (toks : List (List Nat)) (st : RnnState) (η η' : Nat → Mat → Mat),
      decodeSteps cfg p false η conv toks st
        = decodeSteps cfg p false η' conv toks st := by
  intro toks
  induction toks with
  | nil => intro st η η'; rfl
  | cons tok rest ih =>
    intro st η η'
    show (match rnn_decoder.forward cfg p false η tok st conv with
      | none => none
      | some r =>
        match decodeSteps cfg p false η conv rest r.2.1 with
        | none => none
        | some acc => some ((r.1, r.2.2) :: acc.1, acc.2))
      = (match rnn_decoder.forward cfg p false η' tok st conv with
      | none => none
      | some r =>
        match decodeSteps cfg p false η' conv rest r.2.1 with
        | none => none
        | some acc => some ((r.1, r.2.2) :: acc.1, acc.2))
    rw [decoder_forward_eval_noise cfg p η η' tok st conv]
    cases rnn_decoder.forward cfg p false η' tok st conv with
    | none => rfl
    | some r =>
      show (match decodeSteps cfg p false η conv rest r.2.1 with
        | none => none
        | some acc => some ((r.1, r.2.2) :: acc.1, acc.2))
        = (match decodeSteps cfg p false η' conv rest r.2.1 with
        | none => none
        | some acc => some ((r.1, r.2.2) :: acc.1, acc.2))
      rw [ih r.2.1 η η']

/-- C9: with regularization disabled (evaluation mode), running `encode` and
then feeding its initial decoder state through sequential `decode_step` calls
is deterministic: the result does not depend on the noise transformation of
any dropout layer, so repeated runs on identical inputs with identical
parameters produce identical outputs, states and attention weights at every
step. -/
theorem pipeline_eval_deterministic (cfg : EncConfig) (ep : EncParams)
    (dp : DecParams) (ηE ηD ηE' ηD' : Nat → Mat → Mat)
    (inputs : List (List Nat)) (lengths : List Nat) (toks : List (List Nat)) :
    runPipeline cfg ep dp false ηE ηD inputs lengths toks
      = runPipeline cfg ep dp false ηE' ηD' inputs lengths toks := by
  show (match rnn_encoder.forward cfg ep false ηE inputs lengths with
    | none => none
    | some enc =>
      match decodeSteps cfg dp false ηD enc.2.2 toks enc.2.1 with
      | none => none
      | some dec => some (enc.1, dec.1, dec.2))
    = (match rnn_encoder.forward cfg ep false ηE' inputs lengths with
    | none => none
    | some enc =>
      match decodeSteps cfg dp false ηD' enc.2.2 toks enc.2.1 with
      | none => none
      | some dec => some (enc.1, dec.1, dec.2))
  rw [encoder_forward_eval_noise cfg ep ηE ηE' inputs lengths]
  cases rnn_encoder.forward cfg ep false ηE' inputs lengths with
  | none => rfl
  | some enc =>
    show (match decodeSteps cfg dp false ηD enc.2.2 toks enc.2.1 with
      | none => none
      | some dec => some (enc.1, dec.1, dec.2))
      = (match decodeSteps cfg dp false ηD' enc.2.2 toks enc.2.1 with
      | none => none
      | some dec => some (enc.1, dec.1, dec.2))
    rw [decodeSteps_eval_noise cfg dp enc.2.2 toks enc.2.1 ηD ηD']

/-- C10: the encoder constructs a linear submodule mapping `2*hidden_size`
features to `2*hidden_size` features together with a GLU submodule, but its
forward never applies either: the returned (outputs, state, conv) triple is
bit-identical for two encoders that differ only in those two submodules. -/
theorem encoder_unused_linear_glu (cfg : EncConfig) (p : EncParams) (w : Mat)
    (b : Vec) (g : Vec → Vec) (training : Bool) (η : Nat → Mat → Mat)
    (inputs : List (List Nat)) (lengths : List Nat) :
    rnn_encoder.forward cfg
        { p with linear_weight := w, linear_bias := b, glu := g }
        training η inputs lengths
      = rnn_encoder.forward cfg p training η inputs lengths ∧
    ∀ e, rect2 (encoderInitLinearW cfg e) (2 * cfg.hidden_size)
        (2 * cfg.hidden_size) := by
  refine ⟨rfl, ?_⟩
  intro e
  refine ⟨by simp [encoderInitLinearW], ?_⟩
  intro r hr
  rcases List.mem_map.1 hr with ⟨i, _, rfl⟩
  simp

/-- Witness for C7's theorem: the width-4 vector `[1, 2, 3, 4]` is folded to
`[1 + 3, 2 + 4] = [4, 6]`, of width `hidden_size = 2`. -/
theorem bidirectional_sum_fold_witness :
    cfgC7.bidirectional = true ∧
    ((encOutputs cfgC7 pC7 [] []).getD 0 []).getD 0 []
      = (([1, 2, 3, 4] : Vec).take cfgC7.hidden_size).zipWith (· + ·)
          (([1, 2, 3, 4] : Vec).drop cfgC7.hidden_size) ∧
    (([1, 2, 3, 4] : Vec).take cfgC7.hidden_size).zipWith (· + ·)
        (([1, 2, 3, 4] : Vec).drop cfgC7.hidden_size) = [4, 6] := by
  refine ⟨rfl, ?_, by decide⟩
  exact ((bidirectional_sum_fold cfgC7 pC7 [] [] rfl).2 0 0 (by decide)
    (by decide)).1

/-- Witness for C3's theorem at a concrete scenario instance. -/
theorem encode_scenario_fails_witness :
    rect3 ((encRnnOut cfgC3 pC3 (List.replicate 4 [0, 0]) [4, 2]).1) 4 2 16 ∧
    rect3 (encOutputs cfgC3 pC3 (List.replicate 4 [0, 0]) [4, 2]) 4 2 8 ∧
    rnn_encoder.forward cfgC3 pC3 false (fun _ m => m)
      (List.replicate 4 [0, 0]) [4, 2] = none := by
  refine ⟨by decide, ?_⟩
  have := encode_scenario_fails cfgC3 pC3 (fun _ m => m)
    (List.replicate 4 [0, 0]) rfl rfl rfl rfl rfl rfl (by decide)
    (by decide) (by decide) (by decide) (by decide) (by decide) (by decide)
  exact this

/-- Witness for C9's theorem: two concrete noise families give the same
pipeline result in evaluation mode. -/
theorem pipeline_eval_deterministic_witness :
    runPipeline cfgC1 pC1 pC8 false (fun _ m => m) (fun _ m => m)
        (List.replicate 7 [0, 0]) [7, 3] [[0, 0]]
      = runPipeline cfgC1 pC1 pC8 false (fun _ _ => [[5]]) (fun _ _ => [])
        (List.replicate 7 [0, 0]) [7, 3] [[0, 0]] :=
  pipeline_eval_deterministic cfgC1 pC1 pC8 (fun _ m => m) (fun _ m => m)
    (fun _ _ => [[5]]) (fun _ _ => []) (List.replicate 7 [0, 0]) [7, 3]
    [[0, 0]]

/-- Witness for C10's theorem at a concrete encoder instance. -/
theorem encoder_unused_linear_glu_witness :
    rnn_encoder.forward cfgC2 pC10 false (fun _ m => m) [] []
      = rnn_encoder.forward cfgC2 pC2a false (fun _ m => m) [] [] ∧
    rect2 (encoderInitLinearW cfgC2 (fun _ _ => 0)) (2 * cfgC2.hidden_size)
      (2 * cfgC2.hidden_size) :=
  ⟨(encoder_unused_linear_glu cfgC2 pC2a [[7]] [7] (fun _ => []) false
      (fun _ m => m) [] []).1,
    (encoder_unused_linear_glu cfgC2 pC2a [[7]] [7] (fun _ => []) false
      (fun _ m => m) [] []).2 (fun _ _ => 0)⟩
